import Mathlib

/-!
Shallow embedding of `src/index.js`, a local Docker reverse proxy: the routing
table reconciliation pass (`updateRoutes`), the per-request proxy middleware,
the Docker event listener with its reconnect timers, and the error handlers,
together with theorems checking the specification's claims about them.

JavaScript strings are modelled as lists of characters so that the string
operations the code uses (`split`, first-occurrence `replace`) can be reasoned
about by structural induction.  A JavaScript value that is absent/undefined is
an `Option`; an empty string is falsy, matching the truthiness tests the code
performs on addresses and on the host header.
-/

/-- JavaScript strings, modelled as lists of characters. -/
abbrev Str := List Char

/-- JavaScript `s.split(sep)` for a one-character separator string. -/
def jsSplit (sep : Char) : Str → List Str
  | [] => [[]]
  | c :: rest =>
    if c = sep then [] :: jsSplit sep rest
    else
      match jsSplit sep rest with
      | s :: ss => (c :: s) :: ss
      | [] => [[c]]

/-- `host.split(":")[0]` (src/index.js line 82): the host header up to the
first colon; the whole header when it has no colon. -/
def stripPortHost (h : Str) : Str := (jsSplit ':' h).headD []

/-- JavaScript `s.replace(pat, repl)` with a string pattern: only the first
occurrence of `pat` is replaced; `s` is returned unchanged when `pat` does not
occur in it. -/
def jsReplaceFirst (pat repl : Str) : Str → Str
  | [] => if pat = [] then repl else []
  | c :: rest =>
    if pat.isPrefixOf (c :: rest) then repl ++ (c :: rest).drop pat.length
    else c :: jsReplaceFirst pat repl rest

/-- Whether `pat` occurs in a string as a contiguous substring. -/
def occursIn (pat : Str) : Str → Bool
  | [] => pat.isEmpty
  | c :: rest => pat.isPrefixOf (c :: rest) || occursIn pat rest

/-- One routable workload as stored in the table (src/index.js line 49). -/
structure Endpoint where
  name : Str
  ip : Str
  port : Str
deriving DecidableEq

/-- The routing table: the JavaScript `Map` from container name to endpoint,
modelled as an association list kept in insertion order. -/
abbrev Table := List (Str × Endpoint)

/-- JavaScript `Map.get`. -/
def mapGet (k : Str) : Table → Option Endpoint
  | [] => none
  | (k', v) :: rest => if k' = k then some v else mapGet k rest

/-- JavaScript `Map.set`: overwrites an existing key in place, otherwise
appends a new entry at the end. -/
def mapSet (k : Str) (v : Endpoint) : Table → Table
  | [] => [(k, v)]
  | (k', v') :: rest => if k' = k then (k, v) :: rest else (k', v') :: mapSet k v rest

/-- JavaScript `Map.keys`, in insertion order. -/
def mapKeys (m : Table) : List Str := m.map (fun p => p.1)

/-- JavaScript `Map.values`, in insertion order. -/
def mapValues (m : Table) : List Endpoint := m.map (fun p => p.2)

/-- One attached network as reported by inspect (`NetworkSettings.Networks[n]`).
An absent address is the empty string, which is falsy in JavaScript. -/
structure NetworkEntry where
  IPAddress : Str
deriving DecidableEq

/-- The slice of `docker.getContainer(id).inspect()` that `updateRoutes` reads:
`IPAddress` is `NetworkSettings.IPAddress` (the primary/default address),
`Networks` is `NetworkSettings.Networks` (`none` models null/undefined, the
entries are listed in `Object.keys` order), and `ExposedPorts` is
`Object.keys(Config.ExposedPorts)` in order (`{}` when the field is absent). -/
structure ContainerDetails where
  IPAddress : Str
  Networks : Option (List (Str × NetworkEntry))
  ExposedPorts : List Str
deriving DecidableEq

/-- The slice of one element of `docker.listContainers` that `updateRoutes`
reads.  Docker always reports at least one name, of the form "/name". -/
structure ContainerInfo where
  Names : List Str
deriving DecidableEq

/-- `containerInfo.Names[0].replace("/", "")` (line 23). -/
def containerName (info : ContainerInfo) : Str :=
  jsReplaceFirst ['/'] [] (info.Names.headD [])

/-- The loop of lines 33-38: the first non-empty address over the attached
networks, in their reported order; the empty string when none is found. -/
def firstNetworkIp : List (Str × NetworkEntry) → Str
  | [] => []
  | (_, ne) :: rest => if ne.IPAddress = [] then firstNetworkIp rest else ne.IPAddress

/-- Lines 30-39: prefer `NetworkSettings.IPAddress` when truthy; otherwise scan
the attached networks when they are present. -/
def resolveIp (d : ContainerDetails) : Str :=
  if d.IPAddress = [] then
    match d.Networks with
    | some nets => firstNetworkIp nets
    | none => []
  else d.IPAddress

/-- Lines 46-47: `Object.keys(exposedPorts)[0]?.split("/")[0] || "80"`. -/
def resolvePort (d : ContainerDetails) : Str :=
  match d.ExposedPorts with
  | [] => ("80").toList
  | k :: _ =>
    if (jsSplit '/' k).headD [] = [] then ("80").toList else (jsSplit '/' k).headD []

/-- Result of awaiting `inspect` for one container: an exception or details. -/
inductive InspectResult
  | err
  | ok (details : ContainerDetails)
deriving DecidableEq

/-- One loop iteration of lines 22-53, reduced to the produced entry: `none`
when the container is skipped, either because `inspect` threw (caught and
logged at lines 51-53) or because no IP was found (warned and skipped at
lines 41-44). -/
def resolveContainer (info : ContainerInfo) (insp : InspectResult) : Option Endpoint :=
  match insp with
  | .err => none
  | .ok d =>
    if resolveIp d = [] then none
    else some ⟨containerName info, resolveIp d, resolvePort d⟩

/-- One listed container together with the outcome of its `inspect` call. -/
abbrev PassEntry := ContainerInfo × InspectResult

/-- The name under which one listed container would be entered (line 23). -/
def passName (e : PassEntry) : Str := containerName e.1

/-- The effect of one loop iteration on the local `newContainerMap`. -/
def insertResolved (acc : Table) (e : PassEntry) : Table :=
  match resolveContainer e.1 e.2 with
  | some ep => mapSet ep.name ep acc
  | none => acc

/-- Lines 20-54: the new map is built off to the side, starting empty. -/
def buildNewContainerMap (entries : List PassEntry) : Table :=
  entries.foldl insertResolved []

/-- Result of awaiting `docker.listContainers` (line 19): either the listing
call throws, or it yields the containers with their later inspect outcomes. -/
inductive ListContainersResult
  | err
  | ok (entries : List PassEntry)

/-- `updateRoutes` (lines 15-61) as a function from the currently installed
table and the runtime's answers to the table installed when the pass returns:
a listing failure is caught at lines 58-60 leaving the table untouched, and
otherwise line 56 installs the freshly built map by a single assignment. -/
def updateRoutes (containerMap : Table) (res : ListContainersResult) : Table :=
  match res with
  | .err => containerMap
  | .ok entries => buildNewContainerMap entries

/-- The state visible between two awaits inside a pass: the live `containerMap`
read by concurrent lookups, the local `newContainerMap`, and the containers not
yet processed. -/
structure PassState where
  containerMap : Table
  newContainerMap : Table
  remaining : List PassEntry

/-- The state right after line 20: the local map is empty, nothing processed. -/
def passInit (live : Table) (entries : List PassEntry) : PassState :=
  ⟨live, [], entries⟩

/-- One loop iteration (lines 22-54): only the local map grows; the live table
is not written. -/
def passStep (s : PassState) : PassState :=
  match s.remaining with
  | [] => s
  | e :: rest => ⟨s.containerMap, insertResolved s.newContainerMap e, rest⟩

/-- `k` loop iterations. -/
def passRun (s : PassState) : Nat → PassState
  | 0 => s
  | k + 1 => passRun (passStep s) k

/-- Line 56: the single assignment `containerMap = newContainerMap`. -/
def passFinish (s : PassState) : Table := s.newContainerMap

/-- The characters of ".localhost", stripped from the host at line 87. -/
def localhostSuffix : Str := '.' :: ("localhost").toList

/-- Outcome of the proxy middleware of lines 81-123: an immediate JSON error
response (status, `error` field, optional `availableRoutes` field), or a
forward of the request to the resolved target. -/
inductive DispatchOutcome
  | reject (status : Nat) (error : Str) (availableRoutes : Option (List Str))
  | forward (target : Str)
deriving DecidableEq

/-- The key looked up in the table for a given host header value (lines 82-88):
port suffix stripped, then the first occurrence of ".localhost" removed. -/
def lookupKey (h : Str) : Str := jsReplaceFirst localhostSuffix [] (stripPortHost h)

/-- `http://ip:port` (line 98). -/
def targetStr (e : Endpoint) : Str := ("http://").toList ++ e.ip ++ ':' :: e.port

/-- Lines 84-123 once the port-stripped host is computed: a falsy host is
rejected with 400, an unknown name with 502 listing the known routes, and a
known name is forwarded. -/
def dispatchHost (m : Table) (host : Str) : DispatchOutcome :=
  if host = [] then .reject 400 (("No host header provided").toList) none
  else
    match mapGet (jsReplaceFirst localhostSuffix [] host) m with
    | none =>
      .reject 502 ((("No container mapped for hostname: ").toList) ++ host)
        (some ((mapKeys m).map (fun n => n ++ localhostSuffix)))
    | some info => .forward (targetStr info)

/-- The proxy middleware of lines 81-123: `req.headers.host?.split(":")[0]`,
then the 400 / 502 / forward decision on the result. -/
def dispatch (m : Table) (hostHeader : Option Str) : DispatchOutcome :=
  match hostHeader with
  | none => .reject 400 (("No host header provided").toList) none
  | some h => dispatchHost m (stripPortHost h)

/-- The `/routes` listing (lines 72-79): hostname and target per entry, in
table order. -/
def routesSnapshot (m : Table) : List (Str × Str) :=
  (mapValues m).map (fun c => (c.name ++ localhostSuffix, targetStr c))

/-- A parsed Docker event: the `Type` and `Action` fields read at 149-150. -/
structure DockerEvent where
  eventType : Str
  action : Str
deriving DecidableEq

/-- One `data` chunk: either `JSON.parse` throws (caught and logged at lines
154-156) or it yields an event. -/
inductive StreamChunk
  | malformed
  | event (e : DockerEvent)
deriving DecidableEq

/-- Lines 146-157: whether one chunk makes the data handler call
`updateRoutes`.  The decision depends only on the chunk itself; the handler
keeps no state and consults no in-progress-pass flag. -/
def onStreamData : StreamChunk → Bool
  | .malformed => false
  | .event e =>
    decide (e.eventType = ("container").toList ∧
      (e.action = ("start").toList ∨ e.action = ("stop").toList ∨
        e.action = ("die").toList))

/-- How many `updateRoutes` calls a sequence of arriving chunks triggers. -/
def countUpdateTriggers (chunks : List StreamChunk) : Nat :=
  (chunks.filter onStreamData).length

/-- A lifecycle event of kind start/stop/die, as the spec words it. -/
def isTriggerEvent : StreamChunk → Bool
  | .malformed => false
  | .event e =>
    decide (e.eventType = ("container").toList ∧
      e.action ∈ [("start").toList, ("stop").toList, ("die").toList])

/-- The inputs `setupDockerEventListener` (lines 135-169) reacts to. -/
inductive FeedSignal
  | getEventsErr
  | streamError
  | streamEnd
  | chunk (c : StreamChunk)
deriving DecidableEq

/-- The immediate reaction of the event listener to one signal. -/
inductive WatcherAction
  | scheduleReconnect (delayMs : Nat)
  | triggerUpdate
  | ignore
deriving DecidableEq

/-- Lines 136-168: a `getEvents` subscription error reschedules the listener
after 5000 ms (line 139), a stream error after 5000 ms (line 161), a stream
end after 1000 ms (line 166); a data chunk triggers `updateRoutes` exactly
when it is a relevant container event (lines 146-157). -/
def watcherAction : FeedSignal → WatcherAction
  | .getEventsErr => .scheduleReconnect 5000
  | .streamError => .scheduleReconnect 5000
  | .streamEnd => .scheduleReconnect 1000
  | .chunk c => if onStreamData c then .triggerUpdate else .ignore

/-- Whether a signal makes the watcher schedule a reconnect attempt. -/
def schedulesReconnect (s : FeedSignal) : Bool :=
  match watcherAction s with
  | .scheduleReconnect _ => true
  | _ => false

/-- How many reconnect attempts a sequence of feed signals schedules. -/
def countScheduledReconnects (sigs : List FeedSignal) : Nat :=
  (sigs.filter schedulesReconnect).length

/-- A feed failure as the spec words it: subscription error or feed end. -/
def isFeedFailure : FeedSignal → Bool
  | .getEventsErr => true
  | .streamError => true
  | .streamEnd => true
  | .chunk _ => false

/-- A JavaScript error value; only its message is relevant here. -/
structure JsError where
  message : Str
deriving DecidableEq

/-- A JSON error response: HTTP status plus the `error` field of the body. -/
structure JsonBody where
  status : Nat
  error : Str
deriving DecidableEq

/-- Lines 126-129: the final express error handler, reached by any uncaught
failure in the middleware chain; it answers 500 whatever the error was. -/
def errorHandler (_e : JsError) : JsonBody :=
  ⟨500, ("Internal server error").toList⟩

/-- Lines 107-116: the proxy `onError` callback: it answers 502 unless the
response has already started streaming, in which case nothing more is sent. -/
def proxyOnError (_e : JsError) (headersSent : Bool) : Option JsonBody :=
  if headersSent then none else some ⟨502, ("Proxy error").toList⟩

/-- The address selection policy as the spec words it: the first non-empty
address found scanning the attached networks in their reported order, `none`
when there is none. -/
def specFirstAddress : List (Str × NetworkEntry) → Option Str
  | [] => none
  | (_, ne) :: rest =>
    if ne.IPAddress = [] then specFirstAddress rest else some ne.IPAddress

/-- The address selection policy as the spec words it: the primary address
when non-empty, otherwise the first non-empty address over the networks,
otherwise failure (`none`). -/
def specAddress (d : ContainerDetails) : Option Str :=
  if d.IPAddress = [] then
    match d.Networks with
    | some nets => specFirstAddress nets
    | none => none
  else some d.IPAddress

/-- The port policy exactly as the claim words it: the numeric part of the
first declared exposed port with the protocol suffix stripped, and "80" only
when no port is declared at all. -/
def claimedPort (d : ContainerDetails) : Str :=
  match d.ExposedPorts with
  | [] => ("80").toList
  | k :: _ => (jsSplit '/' k).headD []

/-! ### Helper lemmas about the table and the pass -/

theorem mapGet_mapSet_self (k : Str) (v : Endpoint) (m : Table) :
    mapGet k (mapSet k v m) = some v := by
  induction m with
  | nil => simp [mapGet, mapSet]
  | cons p rest ih =>
    obtain ⟨k', v'⟩ := p
    by_cases h : k' = k
    · subst h
      simp [mapGet, mapSet]
    · simp [mapGet, mapSet, h, ih]

theorem mapGet_mapSet_ne (k k' : Str) (v : Endpoint) (m : Table) (h : k ≠ k') :
    mapGet k' (mapSet k v m) = mapGet k' m := by
  induction m with
  | nil => simp [mapGet, mapSet, h]
  | cons p rest ih =>
    obtain ⟨k₀, v₀⟩ := p
    by_cases h0 : k₀ = k
    · subst h0
      simp [mapGet, mapSet, h]
    · simp only [mapSet, if_neg h0]
      by_cases h1 : k₀ = k'
      · subst h1
        simp [mapGet]
      · simp [mapGet, h1, ih]

theorem resolveContainer_name (info : ContainerInfo) (r : InspectResult)
    (ep : Endpoint) (h : resolveContainer info r = some ep) :
    ep.name = containerName info := by
  cases r with
  | err => simp [resolveContainer] at h
  | ok d =>
    simp only [resolveContainer] at h
    by_cases hip : resolveIp d = []
    · simp [hip] at h
    · simp only [if_neg hip, Option.some.injEq] at h
      subst h
      rfl

theorem insertResolved_get_ne (acc : Table) (e : PassEntry) (k : Str)
    (h : passName e ≠ k) : mapGet k (insertResolved acc e) = mapGet k acc := by
  unfold insertResolved
  cases hres : resolveContainer e.1 e.2 with
  | none => rfl
  | some ep =>
    have hn := resolveContainer_name e.1 e.2 ep hres
    rw [mapGet_mapSet_ne]
    rw [hn]
    exact h

theorem foldl_insertResolved_get_notin (k : Str) :
    ∀ (entries : List PassEntry) (acc : Table),
      (∀ e ∈ entries, passName e ≠ k) →
      mapGet k (entries.foldl insertResolved acc) = mapGet k acc := by
  intro entries
  induction entries with
  | nil => intro acc _; rfl
  | cons x rest ih =>
    intro acc h
    have hx : passName x ≠ k := h x (List.mem_cons_self x rest)
    have hrest : ∀ e ∈ rest, passName e ≠ k := fun e he => h e (List.mem_cons_of_mem x he)
    simp only [List.foldl_cons]
    rw [ih (insertResolved acc x) hrest, insertResolved_get_ne acc x k hx]

theorem foldl_insertResolved_get_found :
    ∀ (entries : List PassEntry) (acc : Table) (e : PassEntry) (ep : Endpoint),
      e ∈ entries → (entries.map passName).Nodup →
      resolveContainer e.1 e.2 = some ep →
      mapGet (passName e) (entries.foldl insertResolved acc) = some ep := by
  intro entries
  induction entries with
  | nil => intro acc e ep he; exact absurd he (List.not_mem_nil e)
  | cons x rest ih =>
    intro acc e ep he hnd hres
    rw [List.map_cons, List.nodup_cons] at hnd
    obtain ⟨hnotin, hndrest⟩ := hnd
    rcases List.mem_cons.mp he with rfl | hmem
    · have hrest : ∀ e' ∈ rest, passName e' ≠ passName e := by
        intro e' he' hcontra
        exact hnotin (hcontra ▸ List.mem_map_of_mem passName he')
      simp only [List.foldl_cons]
      rw [foldl_insertResolved_get_notin (passName e) rest (insertResolved acc e) hrest]
      have hins : insertResolved acc e = mapSet ep.name ep acc := by
        unfold insertResolved
        rw [hres]
      have hpn : passName e = ep.name := (resolveContainer_name e.1 e.2 ep hres).symm
      rw [hins, hpn]
      exact mapGet_mapSet_self ep.name ep acc
    · simp only [List.foldl_cons]
      exact ih (insertResolved acc x) e ep hmem hndrest hres

theorem foldl_insertResolved_get_failed :
    ∀ (entries : List PassEntry) (acc : Table) (e : PassEntry),
      e ∈ entries → (entries.map passName).Nodup →
      resolveContainer e.1 e.2 = none →
      mapGet (passName e) (entries.foldl insertResolved acc) = mapGet (passName e) acc := by
  intro entries
  induction entries with
  | nil => intro acc e he; exact absurd he (List.not_mem_nil e)
  | cons x rest ih =>
    intro acc e he hnd hres
    rw [List.map_cons, List.nodup_cons] at hnd
    obtain ⟨hnotin, hndrest⟩ := hnd
    rcases List.mem_cons.mp he with rfl | hmem
    · have hrest : ∀ e' ∈ rest, passName e' ≠ passName e := by
        intro e' he' hcontra
        exact hnotin (hcontra ▸ List.mem_map_of_mem passName he')
      simp only [List.foldl_cons]
      rw [foldl_insertResolved_get_notin (passName e) rest (insertResolved acc e) hrest]
      have hins : insertResolved acc e = acc := by
        unfold insertResolved
        rw [hres]
      rw [hins]
    · have hxe : passName x ≠ passName e := by
        intro hcontra
        exact hnotin (hcontra ▸ List.mem_map_of_mem passName hmem)
      simp only [List.foldl_cons]
      rw [ih (insertResolved acc x) e hmem hndrest hres,
        insertResolved_get_ne acc x (passName e) hxe]

theorem passStep_containerMap (s : PassState) :
    (passStep s).containerMap = s.containerMap := by
  unfold passStep
  cases s.remaining <;> rfl

theorem passRun_containerMap : ∀ (k : Nat) (s : PassState),
    (passRun s k).containerMap = s.containerMap := by
  intro k
  induction k with
  | zero => intro s; rfl
  | succ n ih =>
    intro s
    show (passRun (passStep s) n).containerMap = s.containerMap
    rw [ih (passStep s), passStep_containerMap]

theorem passRun_newContainerMap :
    ∀ (entries : List PassEntry) (live acc : Table),
      (passRun ⟨live, acc, entries⟩ entries.length).newContainerMap =
        entries.foldl insertResolved acc := by
  intro entries
  induction entries with
  | nil => intro live acc; rfl
  | cons e rest ih =>
    intro live acc
    show (passRun (passStep ⟨live, acc, e :: rest⟩) rest.length).newContainerMap =
      (e :: rest).foldl insertResolved acc
    have hstep : passStep ⟨live, acc, e :: rest⟩ = ⟨live, insertResolved acc e, rest⟩ := rfl
    rw [hstep, List.foldl_cons]
    exact ih live (insertResolved acc e)

/-! ### C1, C2, C4: the reconciliation pass -/

/-- C1: Whole-table atomic replacement.  During a reconciliation pass the live
table still answers every lookup and every snapshot from the previous table
after any number of loop iterations; the pass builds the entire new mapping in
the separate `newContainerMap`; and the single final assignment installs
exactly that fully built map, which is what `updateRoutes` returns.  At no
intermediate point is a partially populated table observable. -/
theorem updateRoutes_wholesale_swap (live : Table) (entries : List PassEntry)
    (k : Nat) (name : Str) :
    (passRun (passInit live entries) k).containerMap = live
  ∧ mapGet name (passRun (passInit live entries) k).containerMap = mapGet name live
  ∧ routesSnapshot (passRun (passInit live entries) k).containerMap = routesSnapshot live
  ∧ passFinish (passRun (passInit live entries) entries.length) = buildNewContainerMap entries
  ∧ updateRoutes live (ListContainersResult.ok entries) = buildNewContainerMap entries := by
  have h1 : (passRun (passInit live entries) k).containerMap = live :=
    passRun_containerMap k (passInit live entries)
  refine ⟨h1, by rw [h1], by rw [h1], ?_, rfl⟩
  show (passRun ⟨live, [], entries⟩ entries.length).newContainerMap = _
  rw [passRun_newContainerMap entries live []]
  rfl

/-- C2: Listing-failure safety.  When the listing call fails, the pass returns
the previous table unchanged, so every lookup answers the same before and
after the failed pass; the failure is absorbed by the catch block rather than
escalated. -/
theorem updateRoutes_listing_failure_safe (containerMap : Table) (name : Str) :
    updateRoutes containerMap ListContainersResult.err = containerMap
  ∧ mapGet name (updateRoutes containerMap ListContainersResult.err) =
      mapGet name containerMap :=
  ⟨rfl, rfl⟩

/-- C4: Partial-failure isolation.  A pass whose listing succeeded always
completes and installs the built table whatever the per-container failures
were; with pairwise distinct names, every container whose inspect and
resolution succeeded is present under its name with its resolved endpoint,
and every container whose inspect or resolution failed is simply absent. -/
theorem buildNewContainerMap_partial_failure_isolation (entries : List PassEntry)
    (hnodup : (entries.map passName).Nodup) :
    (∀ live : Table,
      updateRoutes live (ListContainersResult.ok entries) = buildNewContainerMap entries)
  ∧ (∀ e ∈ entries, ∀ ep : Endpoint, resolveContainer e.1 e.2 = some ep →
      mapGet (passName e) (buildNewContainerMap entries) = some ep)
  ∧ (∀ e ∈ entries, resolveContainer e.1 e.2 = none →
      mapGet (passName e) (buildNewContainerMap entries) = none) := by
  refine ⟨fun _ => rfl, ?_, ?_⟩
  · intro e he ep hres
    exact foldl_insertResolved_get_found entries [] e ep he hnodup hres
  · intro e he hres
    have h := foldl_insertResolved_get_failed entries [] e he hnodup hres
    exact h.trans rfl

/-- A concrete pass: the middle container has no address anywhere and fails
resolution; the other two resolve. -/
def passEntryWeb : PassEntry :=
  (⟨[("/web").toList]⟩, .ok ⟨("10.0.0.1").toList, none, [("3000/tcp").toList]⟩)

def passEntryDb : PassEntry :=
  (⟨[("/db").toList]⟩, .ok ⟨[], some [(("net0").toList, ⟨[]⟩)], []⟩)

def passEntryApi : PassEntry :=
  (⟨[("/api").toList]⟩,
    .ok ⟨[], some [(("bridge").toList, ⟨("172.17.0.3").toList⟩)], [("8080/tcp").toList]⟩)

/-- Witness for C4 on a concrete three-container pass with one failure. -/
theorem buildNewContainerMap_partial_failure_isolation_witness :
    mapGet (("web").toList) (buildNewContainerMap [passEntryWeb, passEntryDb, passEntryApi]) =
      some ⟨("web").toList, ("10.0.0.1").toList, ("3000").toList⟩
  ∧ mapGet (("db").toList) (buildNewContainerMap [passEntryWeb, passEntryDb, passEntryApi]) =
      none
  ∧ mapGet (("api").toList) (buildNewContainerMap [passEntryWeb, passEntryDb, passEntryApi]) =
      some ⟨("api").toList, ("172.17.0.3").toList, ("8080").toList⟩
  ∧ updateRoutes [] (ListContainersResult.ok [passEntryWeb, passEntryDb, passEntryApi]) =
      buildNewContainerMap [passEntryWeb, passEntryDb, passEntryApi] := by
  have h := buildNewContainerMap_partial_failure_isolation
    [passEntryWeb, passEntryDb, passEntryApi] (by decide)
  refine ⟨?_, ?_, ?_, h.1 []⟩
  · exact h.2.1 passEntryWeb (by decide)
      ⟨("web").toList, ("10.0.0.1").toList, ("3000").toList⟩ (by decide)
  · exact h.2.2 passEntryDb (by decide) (by decide)
  · exact h.2.1 passEntryApi (by decide)
      ⟨("api").toList, ("172.17.0.3").toList, ("8080").toList⟩ (by decide)

/-! ### C5: the endpoint resolution policy -/

theorem firstNetworkIp_specFirstAddress : ∀ nets : List (Str × NetworkEntry),
    (specFirstAddress nets = none → firstNetworkIp nets = [])
  ∧ (∀ ip, specFirstAddress nets = some ip → firstNetworkIp nets = ip ∧ ip ≠ []) := by
  intro nets
  induction nets with
  | nil =>
    refine ⟨fun _ => rfl, fun ip h => ?_⟩
    simp [specFirstAddress] at h
  | cons p rest ih =>
    obtain ⟨nm, ne⟩ := p
    by_cases h : ne.IPAddress = []
    · refine ⟨fun hn => ?_, fun ip hs => ?_⟩
      · simp only [specFirstAddress, if_pos h] at hn
        simp only [firstNetworkIp, if_pos h]
        exact ih.1 hn
      · simp only [specFirstAddress, if_pos h] at hs
        simp only [firstNetworkIp, if_pos h]
        exact ih.2 ip hs
    · refine ⟨fun hn => ?_, fun ip hs => ?_⟩
      · simp [specFirstAddress, if_neg h] at hn
      · simp only [specFirstAddress, if_neg h, Option.some.injEq] at hs
        subst hs
        exact ⟨by simp only [firstNetworkIp, if_neg h], h⟩

/-- C5 (amended): when metadata is available, resolution succeeds exactly when
the spec-side address policy yields an address — the primary address when
non-empty, else the first non-empty address over the networks in reported
order, else failure — and the endpoint carries that address and the resolved
port; the resolved port is the part of the first exposed-port key before the
protocol suffix when that part is non-empty, and "80" both when no port is
declared and when that stripped part is empty. -/
theorem resolveContainer_policy_amended (info : ContainerInfo) (d : ContainerDetails) :
    resolveContainer info (InspectResult.ok d) =
      (specAddress d).map (fun ip => ⟨containerName info, ip, resolvePort d⟩)
  ∧ (d.IPAddress ≠ [] → specAddress d = some d.IPAddress)
  ∧ (d.IPAddress = [] → d.Networks = none → specAddress d = none)
  ∧ (d.ExposedPorts = [] → resolvePort d = ("80").toList)
  ∧ (∀ k ks, d.ExposedPorts = k :: ks →
      ((jsSplit '/' k).headD [] ≠ [] → resolvePort d = (jsSplit '/' k).headD [])
    ∧ ((jsSplit '/' k).headD [] = [] → resolvePort d = ("80").toList)) := by
  refine ⟨?_, ?_, ?_, ?_, ?_⟩
  · by_cases hip : d.IPAddress = []
    · cases hN : d.Networks with
      | none =>
        have hr : resolveIp d = [] := by simp [resolveIp, hip, hN]
        simp [resolveContainer, hr, specAddress, hip, hN]
      | some nets =>
        cases hs : specFirstAddress nets with
        | none =>
          have hf : firstNetworkIp nets = [] := (firstNetworkIp_specFirstAddress nets).1 hs
          have hr : resolveIp d = [] := by simp [resolveIp, hip, hN, hf]
          simp [resolveContainer, hr, specAddress, hip, hN, hs]
        | some ip =>
          obtain ⟨hf, hipne⟩ := (firstNetworkIp_specFirstAddress nets).2 ip hs
          have hr : resolveIp d = ip := by simp [resolveIp, hip, hN, hf]
          simp [resolveContainer, hr, hipne, specAddress, hip, hN, hs]
    · have hr : resolveIp d = d.IPAddress := by simp [resolveIp, hip]
      simp [resolveContainer, hr, hip, specAddress]
  · intro h
    simp [specAddress, h]
  · intro h1 h2
    simp [specAddress, h1, h2]
  · intro h
    simp [resolvePort, h]
  · intro k ks h
    have hport : resolvePort d =
        if (jsSplit '/' k).headD [] = [] then ("80").toList
        else (jsSplit '/' k).headD [] := by
      simp only [resolvePort, h]
    refine ⟨fun hk => ?_, fun hk => ?_⟩
    · rw [hport, if_neg hk]
    · rw [hport, if_pos hk]

/-- A container whose only declared exposed-port key has an empty part before
the protocol suffix. -/
def portEdgeDetails : ContainerDetails :=
  ⟨("172.17.0.2").toList, none, [("/tcp").toList]⟩

/-- C5 counterexample: for the exposed-port key "/tcp" the code resolves port
"80", while the claimed policy (numeric part with the protocol suffix
stripped, "80" only when no port is declared) yields the empty string. -/
theorem resolvePort_claim_counterexample :
    resolvePort portEdgeDetails = ("80").toList
  ∧ claimedPort portEdgeDetails = []
  ∧ resolvePort portEdgeDetails ≠ claimedPort portEdgeDetails := by
  decide

/-- A container with an empty primary address, one address-less network and
one with an address, and a normal exposed port. -/
def apiDetails : ContainerDetails :=
  ⟨[], some [(("m0").toList, ⟨[]⟩), (("m1").toList, ⟨("10.1.2.3").toList⟩)],
    [("8080/tcp").toList]⟩

/-- Witness for the amended C5 at concrete inputs. -/
theorem resolveContainer_policy_amended_witness :
    resolveContainer ⟨[("/api").toList]⟩ (InspectResult.ok apiDetails) =
      (specAddress apiDetails).map
        (fun ip => ⟨containerName ⟨[("/api").toList]⟩, ip, resolvePort apiDetails⟩)
  ∧ specAddress portEdgeDetails = some (("172.17.0.2").toList)
  ∧ resolvePort portEdgeDetails = ("80").toList
  ∧ resolvePort apiDetails = (jsSplit '/' (("8080/tcp").toList)).headD [] := by
  have h1 := resolveContainer_policy_amended ⟨[("/api").toList]⟩ apiDetails
  have h2 := resolveContainer_policy_amended ⟨[("/api").toList]⟩ portEdgeDetails
  refine ⟨h1.1, h2.2.1 (by decide), ?_, ?_⟩
  · exact (h2.2.2.2.2 (("/tcp").toList) [] rfl).2 (by decide)
  · exact (h1.2.2.2.2 (("8080/tcp").toList) [] rfl).1 (by decide)

/-! ### C3, C9: the event listener -/

/-- Two relevant lifecycle events used as a concrete burst below. -/
def startChunk : StreamChunk := .event ⟨("container").toList, ("start").toList⟩

def stopChunk : StreamChunk := .event ⟨("container").toList, ("stop").toList⟩

/-- C3 counterexample: two relevant lifecycle events arriving while a pass is
in progress trigger two further `updateRoutes` passes, not at most one — the
data handler has no in-progress guard or pending flag at all. -/
theorem eventListener_no_coalescing_counterexample :
    countUpdateTriggers [startChunk, stopChunk] = 2
  ∧ ¬ countUpdateTriggers [startChunk, stopChunk] ≤ 1 := by
  decide

/-- C3 (amended): every relevant lifecycle event triggers its own
reconciliation pass — a chunk sequence triggers exactly one pass per contained
start/stop/die container event, so N such events trigger N passes, with no
coalescing and no mutual exclusion between passes. -/
theorem eventListener_per_event_trigger :
    (∀ chunks : List StreamChunk,
      countUpdateTriggers chunks = (chunks.filter isTriggerEvent).length)
  ∧ (∀ n : Nat, countUpdateTriggers (List.replicate n startChunk) = n) := by
  have hpt : ∀ c, onStreamData c = isTriggerEvent c := by
    intro c
    cases c with
    | malformed => rfl
    | event e =>
      simp only [onStreamData, isTriggerEvent]
      apply decide_eq_decide.mpr
      simp [List.mem_cons]
  constructor
  · intro chunks
    unfold countUpdateTriggers
    rw [List.filter_congr (fun c _ => hpt c)]
  · intro n
    induction n with
    | zero => rfl
    | succ m ih =>
      show countUpdateTriggers (startChunk :: List.replicate m startChunk) = m + 1
      unfold countUpdateTriggers at ih ⊢
      rw [List.filter_cons_of_pos]
      · rw [List.length_cons, ih]
      · decide

/-- C9: Feed reconnect backoff.  A subscription error — whether the getEvents
callback error or a later stream error — schedules a reconnect after 5000 ms,
a clean stream end schedules one after 1000 ms, and every failure signal
schedules a reconnect regardless of how many failures came before: there is
no retry cap. -/
theorem watcher_reconnect_backoff :
    watcherAction FeedSignal.getEventsErr = WatcherAction.scheduleReconnect 5000
  ∧ watcherAction FeedSignal.streamError = WatcherAction.scheduleReconnect 5000
  ∧ watcherAction FeedSignal.streamEnd = WatcherAction.scheduleReconnect 1000
  ∧ (∀ sigs : List FeedSignal,
      countScheduledReconnects sigs = (sigs.filter isFeedFailure).length)
  ∧ (∀ n : Nat, countScheduledReconnects (List.replicate n FeedSignal.streamEnd) = n) := by
  have hpt : ∀ s, schedulesReconnect s = isFeedFailure s := by
    intro s
    cases s with
    | getEventsErr => rfl
    | streamError => rfl
    | streamEnd => rfl
    | chunk c =>
      simp only [schedulesReconnect, watcherAction, isFeedFailure]
      cases h : onStreamData c <;> simp [h]
  refine ⟨rfl, rfl, rfl, ?_, ?_⟩
  · intro sigs
    unfold countScheduledReconnects
    rw [List.filter_congr (fun s _ => hpt s)]
  · intro n
    induction n with
    | zero => rfl
    | succ m ih =>
      show countScheduledReconnects
        (FeedSignal.streamEnd :: List.replicate m FeedSignal.streamEnd) = m + 1
      unfold countScheduledReconnects at ih ⊢
      rw [List.filter_cons_of_pos]
      · rw [List.length_cons, ih]
      · rfl

/-! ### C8: uncaught-failure conversion -/

/-- C8 counterexample: an uncaught failure reaching the final error handler is
answered with status 500, not with a 502-class routing/upstream response. -/
theorem errorHandler_status_counterexample :
    errorHandler ⟨("boom").toList⟩ = ⟨500, ("Internal server error").toList⟩
  ∧ (errorHandler ⟨("boom").toList⟩).status ≠ 502 := by
  decide

/-- C8 (amended): every uncaught failure in the forwarding path is converted
to a JSON error response rather than propagating: the final express handler
answers 500 "Internal server error" whatever the error, while the proxy error
callback answers 502 "Proxy error" for transport failures when the response
has not begun, and sends nothing further once it has. -/
theorem uncaught_failure_conversion_amended :
    (∀ e : JsError, errorHandler e = ⟨500, ("Internal server error").toList⟩)
  ∧ (∀ e : JsError, proxyOnError e false = some ⟨502, ("Proxy error").toList⟩)
  ∧ (∀ e : JsError, proxyOnError e true = none) :=
  ⟨fun _ => rfl, fun _ => rfl, fun _ => rfl⟩

/-! ### Helper lemmas about the JavaScript string operations -/

theorem jsSplit_ne_nil (sep : Char) (s : Str) : jsSplit sep s ≠ [] := by
  cases s with
  | nil => simp [jsSplit]
  | cons c rest =>
    simp only [jsSplit]
    by_cases h : c = sep
    · simp [h]
    · simp only [if_neg h]
      cases hs : jsSplit sep rest with
      | nil => simp
      | cons a as => simp

theorem stripPortHost_cons (c : Char) (rest : Str) :
    stripPortHost (c :: rest) = if c = ':' then [] else c :: stripPortHost rest := by
  by_cases h : c = ':'
  · simp [stripPortHost, jsSplit, h]
  · simp only [stripPortHost, jsSplit, if_neg h]
    cases hs : jsSplit ':' rest with
    | nil => exact absurd hs (jsSplit_ne_nil ':' rest)
    | cons a as => simp

theorem stripPortHost_no_colon : ∀ a : Str, ':' ∉ a → stripPortHost a = a := by
  intro a
  induction a with
  | nil => intro _; rfl
  | cons c rest ih =>
    intro h
    have hc : c ≠ ':' := fun hc => h (hc ▸ List.mem_cons_self c rest)
    rw [stripPortHost_cons, if_neg hc, ih (fun hm => h (List.mem_cons_of_mem c hm))]

theorem stripPortHost_append_no_colon : ∀ a b : Str, ':' ∉ a →
    stripPortHost (a ++ b) = a ++ stripPortHost b := by
  intro a b
  induction a with
  | nil => intro _; rfl
  | cons c rest ih =>
    intro h
    have hc : c ≠ ':' := fun hc => h (hc ▸ List.mem_cons_self c rest)
    rw [List.cons_append, stripPortHost_cons, if_neg hc,
      ih (fun hm => h (List.mem_cons_of_mem c hm))]
    rfl

theorem stripPortHost_append_colon_mem : ∀ a b : Str, ':' ∈ a →
    stripPortHost (a ++ b) = stripPortHost a := by
  intro a b
  induction a with
  | nil => intro h; exact absurd h (List.not_mem_nil ':')
  | cons c rest ih =>
    intro h
    by_cases hc : c = ':'
    · rw [List.cons_append, stripPortHost_cons, stripPortHost_cons, if_pos hc, if_pos hc]
    · have hmem : ':' ∈ rest := by
        rcases List.mem_cons.mp h with h1 | h1
        · exact absurd h1.symm hc
        · exact h1
      rw [List.cons_append, stripPortHost_cons, stripPortHost_cons, if_neg hc, if_neg hc,
        ih hmem]

/-- Appending ":port" after a host ending in ".localhost" never changes the
port-stripped host: the part before the first colon is the same. -/
theorem stripPortHost_localhost_port (n p : Str) :
    stripPortHost ((n ++ localhostSuffix) ++ ':' :: p) =
      stripPortHost (n ++ localhostSuffix) := by
  by_cases hn : ':' ∈ n
  · have h1 : ':' ∈ n ++ localhostSuffix := List.mem_append_left _ hn
    rw [stripPortHost_append_colon_mem (n ++ localhostSuffix) (':' :: p) h1]
  · have h2 : ':' ∉ n ++ localhostSuffix := by
      intro hm
      rcases List.mem_append.mp hm with h3 | h3
      · exact hn h3
      · exact absurd h3 (by decide)
    rw [stripPortHost_append_no_colon (n ++ localhostSuffix) (':' :: p) h2,
      stripPortHost_no_colon (n ++ localhostSuffix) h2]
    have hcol : stripPortHost (':' :: p) = [] := by
      rw [stripPortHost_cons, if_pos rfl]
    rw [hcol, List.append_nil]

theorem isPrefixOf_iff_ex : ∀ a s : Str, a.isPrefixOf s = true ↔ ∃ r, s = a ++ r := by
  intro a
  induction a with
  | nil =>
    intro s
    exact ⟨fun _ => ⟨s, rfl⟩, fun _ => by cases s <;> rfl⟩
  | cons c a' ih =>
    intro s
    cases s with
    | nil =>
      constructor
      · intro h
        simp [List.isPrefixOf] at h
      · rintro ⟨r, hr⟩
        simp at hr
    | cons d s' =>
      constructor
      · intro h
        simp only [List.isPrefixOf, Bool.and_eq_true, beq_iff_eq] at h
        obtain ⟨hcd, h2⟩ := h
        subst hcd
        obtain ⟨r, hr⟩ := (ih s').mp h2
        subst hr
        exact ⟨r, rfl⟩
      · rintro ⟨r, hr⟩
        rw [List.cons_append] at hr
        injection hr with h1 h2
        simp only [List.isPrefixOf, Bool.and_eq_true, beq_iff_eq]
        exact ⟨h1.symm, (ih s').mpr ⟨r, h2⟩⟩

/-- A list that extends `n ++ x` as a prefix without fitting inside `n` must
run past `n`: it splits as `n` plus a non-empty prefix of `x`. -/
theorem isPrefixOf_split : ∀ n t x : Str,
    t.isPrefixOf (n ++ x) = true → t.isPrefixOf n = false →
    ∃ t2, t2 ≠ [] ∧ t = n ++ t2 ∧ t2.isPrefixOf x = true := by
  intro n
  induction n with
  | nil =>
    intro t x h1 h2
    refine ⟨t, ?_, rfl, h1⟩
    intro ht
    subst ht
    simp [List.isPrefixOf] at h2
  | cons e n' ih =>
    intro t x h1 h2
    cases t with
    | nil => simp [List.isPrefixOf] at h2
    | cons u t' =>
      rw [List.cons_append] at h1
      simp only [List.isPrefixOf, Bool.and_eq_true, beq_iff_eq] at h1
      obtain ⟨hue, h1'⟩ := h1
      subst hue
      have h2' : t'.isPrefixOf n' = false := by
        cases hcon : t'.isPrefixOf n' with
        | false => rfl
        | true =>
          have htr : (u :: t').isPrefixOf (u :: n') = true := by
            simp only [List.isPrefixOf, Bool.and_eq_true, beq_iff_eq]
            exact ⟨by trivial, hcon⟩
          rw [htr] at h2
          exact Bool.noConfusion h2
      obtain ⟨t2, ht2ne, ht2eq, ht2pf⟩ := ih t' x h1' h2'
      refine ⟨t2, ht2ne, ?_, ht2pf⟩
      rw [ht2eq]
      rfl

/-- When the pattern does not occur, first-occurrence replacement is the
identity. -/
theorem jsReplaceFirst_no_occurrence : ∀ pat s : Str, occursIn pat s = false →
    jsReplaceFirst pat [] s = s := by
  intro pat s
  induction s with
  | nil => intro _; simp [jsReplaceFirst]
  | cons c rest ih =>
    intro h
    simp only [occursIn, Bool.or_eq_false_iff] at h
    obtain ⟨h1, h2⟩ := h
    simp only [jsReplaceFirst]
    have hneg : ¬ pat.isPrefixOf (c :: rest) = true := by
      rw [h1]
      exact Bool.false_ne_true
    rw [if_neg hneg, ih h2]

/-- For a pattern whose head character does not recur in its tail (such as
".localhost", whose dot appears only at the front), deleting the first
occurrence from `n ++ pat ++ b` removes exactly the explicit middle copy
whenever the pattern does not occur in `n`. -/
theorem jsReplaceFirst_boundary (c : Char) (t : Str) (hct : c ∉ t) :
    ∀ n b : Str, occursIn (c :: t) n = false →
      jsReplaceFirst (c :: t) [] ((n ++ (c :: t)) ++ b) = n ++ b := by
  intro n
  induction n with
  | nil =>
    intro b _
    have hpre : (c :: t).isPrefixOf (c :: (t ++ b)) = true :=
      (isPrefixOf_iff_ex (c :: t) (c :: (t ++ b))).mpr ⟨b, rfl⟩
    show jsReplaceFirst (c :: t) [] (c :: (t ++ b)) = b
    simp only [jsReplaceFirst]
    rw [if_pos hpre]
    simp only [List.nil_append, List.length_cons, List.drop_succ_cons, List.drop_left]
  | cons d n' ih =>
    intro b hocc
    simp only [occursIn, Bool.or_eq_false_iff] at hocc
    obtain ⟨hpre0, hocc'⟩ := hocc
    have hpre : (c :: t).isPrefixOf (d :: ((n' ++ (c :: t)) ++ b)) = false := by
      cases hcon : (c :: t).isPrefixOf (d :: ((n' ++ (c :: t)) ++ b)) with
      | false => rfl
      | true =>
        exfalso
        simp only [List.isPrefixOf, Bool.and_eq_true, beq_iff_eq] at hcon
        obtain ⟨hcd, htp⟩ := hcon
        have htn : t.isPrefixOf n' = false := by
          cases hcon2 : t.isPrefixOf n' with
          | false => rfl
          | true =>
            have htr : (c :: t).isPrefixOf (d :: n') = true := by
              simp only [List.isPrefixOf, Bool.and_eq_true, beq_iff_eq]
              exact ⟨hcd, hcon2⟩
            rw [htr] at hpre0
            exact Bool.noConfusion hpre0
        rw [List.append_assoc] at htp
        obtain ⟨t2, ht2ne, ht2eq, ht2pf⟩ := isPrefixOf_split n' t ((c :: t) ++ b) htp htn
        cases t2 with
        | nil => exact ht2ne rfl
        | cons c2 t2' =>
          obtain ⟨r, hr⟩ := (isPrefixOf_iff_ex (c2 :: t2') ((c :: t) ++ b)).mp ht2pf
          simp only [List.cons_append] at hr
          injection hr with hc2 _
          have hmem : c ∈ t := by
            rw [ht2eq, hc2]
            exact List.mem_append_right n' (List.mem_cons_self c2 t2')
          exact hct hmem
    show jsReplaceFirst (c :: t) [] (d :: ((n' ++ (c :: t)) ++ b)) = d :: (n' ++ b)
    simp only [jsReplaceFirst]
    have hneg : ¬ (c :: t).isPrefixOf (d :: ((n' ++ (c :: t)) ++ b)) = true := by
      rw [hpre]
      exact Bool.false_ne_true
    rw [if_neg hneg, ih b hocc']

/-! ### C6, C7, C10: the dispatch path -/

/-- C7: Host normalization and missing-host rejection.  For every name and
every port suffix, a request whose host is the name with ".localhost" and a
":port" appended dispatches identically to one without the ":port"; a request
carrying no host header at all is rejected with 400 "No host header provided"
before any table interaction — the outcome does not depend on the table. -/
theorem dispatch_host_normalization (m : Table) (n p : Str) :
    dispatch m (some ((n ++ localhostSuffix) ++ ':' :: p)) =
      dispatch m (some (n ++ localhostSuffix))
  ∧ dispatch m none =
      DispatchOutcome.reject 400 (("No host header provided").toList) none
  ∧ (∀ m' : Table, dispatch m' none = dispatch m none) := by
  refine ⟨?_, rfl, fun m' => rfl⟩
  show dispatchHost m (stripPortHost ((n ++ localhostSuffix) ++ ':' :: p)) =
    dispatchHost m (stripPortHost (n ++ localhostSuffix))
  rw [stripPortHost_localhost_port n p]

/-- C6: Unknown-name dispatch.  When the port-stripped host is non-empty and
its lookup key is not in the table, the middleware does not forward anywhere
and answers 502 with an error naming the requested host and with the list of
all currently known names, each rendered with the ".localhost" suffix — the
empty list for the empty table. -/
theorem dispatch_unknown_name_502 (m : Table) (h : Str)
    (hhost : stripPortHost h ≠ [])
    (hmiss : mapGet (jsReplaceFirst localhostSuffix [] (stripPortHost h)) m = none) :
    dispatch m (some h) =
      DispatchOutcome.reject 502
        ((("No container mapped for hostname: ").toList) ++ stripPortHost h)
        (some ((mapKeys m).map (fun name => name ++ localhostSuffix)))
  ∧ (∀ t : Str, dispatch m (some h) ≠ DispatchOutcome.forward t) := by
  have hmain : dispatchHost m (stripPortHost h) =
      DispatchOutcome.reject 502
        ((("No container mapped for hostname: ").toList) ++ stripPortHost h)
        (some ((mapKeys m).map (fun name => name ++ localhostSuffix))) := by
    unfold dispatchHost
    rw [if_neg hhost, hmiss]
  have hd : dispatch m (some h) = dispatchHost m (stripPortHost h) := rfl
  refine ⟨hd.trans hmain, fun t hcon => ?_⟩
  rw [hd, hmain] at hcon
  exact DispatchOutcome.noConfusion hcon

/-- Witness for C6: the empty-table scenario with host "ghost.localhost"
yields 502, an error naming the host, and an empty available-routes list. -/
theorem dispatch_unknown_name_502_witness :
    stripPortHost (("ghost.localhost").toList) ≠ []
  ∧ dispatch [] (some (("ghost.localhost").toList)) =
      DispatchOutcome.reject 502
        ((("No container mapped for hostname: ").toList) ++
          stripPortHost (("ghost.localhost").toList))
        (some []) := by
  have h := dispatch_unknown_name_502 [] (("ghost.localhost").toList)
    (by decide) (by decide)
  exact ⟨by decide, h.1⟩

/-- C10: First-occurrence removal, not suffix removal.  Removing ".localhost"
at line 87 deletes only the first occurrence of that substring from the
port-stripped host: a host that contains no ".localhost" at all is keyed by
the full host string, so a bare name and its ".localhost" form hit the same
table entry and forward to the same target, and a host carrying ".localhost"
in a non-suffix position is keyed by the host with only that first occurrence
deleted. -/
theorem dispatch_first_occurrence_semantics (m : Table) (n a b : Str)
    (hne : n ≠ []) (hcolon : ':' ∉ n) (hloc : occursIn localhostSuffix n = false)
    (ha : occursIn localhostSuffix a = false) :
    (∀ s : Str, occursIn localhostSuffix s = false →
      jsReplaceFirst localhostSuffix [] s = s)
  ∧ lookupKey n = n
  ∧ lookupKey (n ++ localhostSuffix) = n
  ∧ (∀ e : Endpoint, mapGet n m = some e →
      dispatch m (some n) = DispatchOutcome.forward (targetStr e)
    ∧ dispatch m (some (n ++ localhostSuffix)) = DispatchOutcome.forward (targetStr e))
  ∧ jsReplaceFirst localhostSuffix [] ((a ++ localhostSuffix) ++ b) = a ++ b := by
  have hct : '.' ∉ ("localhost").toList := by decide
  have hnooc : ∀ s : Str, occursIn localhostSuffix s = false →
      jsReplaceFirst localhostSuffix [] s = s :=
    fun s hs => jsReplaceFirst_no_occurrence localhostSuffix s hs
  have hkey1 : lookupKey n = n := by
    unfold lookupKey
    rw [stripPortHost_no_colon n hcolon, hnooc n hloc]
  have hstrip2 : stripPortHost (n ++ localhostSuffix) = n ++ localhostSuffix := by
    apply stripPortHost_no_colon
    intro hmem
    rcases List.mem_append.mp hmem with h1 | h1
    · exact hcolon h1
    · exact absurd h1 (by decide)
  have hrf2 : jsReplaceFirst localhostSuffix [] (n ++ localhostSuffix) = n := by
    have hb := jsReplaceFirst_boundary '.' (("localhost").toList) hct n [] hloc
    simp only [List.append_nil] at hb
    exact hb
  have hkey2 : lookupKey (n ++ localhostSuffix) = n := by
    unfold lookupKey
    rw [hstrip2, hrf2]
  have hfwd : ∀ e : Endpoint, mapGet n m = some e →
      dispatch m (some n) = DispatchOutcome.forward (targetStr e)
    ∧ dispatch m (some (n ++ localhostSuffix)) = DispatchOutcome.forward (targetStr e) := by
    intro e hget
    constructor
    · show dispatchHost m (stripPortHost n) = _
      rw [stripPortHost_no_colon n hcolon]
      unfold dispatchHost
      rw [if_neg hne, hnooc n hloc, hget]
    · show dispatchHost m (stripPortHost (n ++ localhostSuffix)) = _
      rw [hstrip2]
      unfold dispatchHost
      have hne2 : n ++ localhostSuffix ≠ [] := by
        simp [localhostSuffix]
      rw [if_neg hne2, hrf2, hget]
  exact ⟨hnooc, hkey1, hkey2, hfwd,
    jsReplaceFirst_boundary '.' (("localhost").toList) hct a b ha⟩

/-- A one-entry table mapping "nginx" to 172.17.0.2:80. -/
def nginxTable : Table :=
  [(("nginx").toList, ⟨("nginx").toList, ("172.17.0.2").toList, ("80").toList⟩)]

/-- Witness for C10: the bare host "nginx" and the host "nginx.localhost"
forward to the same target, and "a.localhost.b" is keyed as "a.b". -/
theorem dispatch_first_occurrence_semantics_witness :
    dispatch nginxTable (some (("nginx").toList)) =
      DispatchOutcome.forward
        (targetStr ⟨("nginx").toList, ("172.17.0.2").toList, ("80").toList⟩)
  ∧ dispatch nginxTable (some ((("nginx").toList) ++ localhostSuffix)) =
      DispatchOutcome.forward
        (targetStr ⟨("nginx").toList, ("172.17.0.2").toList, ("80").toList⟩)
  ∧ jsReplaceFirst localhostSuffix [] (((("a").toList) ++ localhostSuffix) ++ ((".b").toList)) =
      (("a").toList) ++ ((".b").toList) := by
  have h := dispatch_first_occurrence_semantics nginxTable (("nginx").toList)
    (("a").toList) ((".b").toList) (by decide) (by decide) (by decide) (by decide)
  have hf := h.2.2.2.1 ⟨("nginx").toList, ("172.17.0.2").toList, ("80").toList⟩ (by decide)
  exact ⟨hf.1, hf.2, h.2.2.2.2⟩
